import Mathlib

set_option linter.unnecessarySeqFocus false

/-!
# Verification of the 6502.ts state-machine CPU driver

A shallow embedding of `src/machine/cpu/StateMachineCpu.ts`: the CPU driver
that pumps one bus cycle at a time through microcode state machines.

The driver's own logic (`reset`, `cycle`, `_fetch`, `_pollInterrupts`) is
translated directly from the TypeScript source.  The micro-machines (boot,
IRQ and NMI entry, and the 256-entry opcode table built by the compiler) are
abstracted as collaborators: a `StateMachine` is anything with a `reset`
operation producing a first `Result`, and a `Result` carries its own
`nextStep` continuation, exactly as in the source interface.

Machine integers are modelled as `Nat` with explicit masking where the source
masks (`& 0xffff` on the program counter); bus activity and interrupt polls
are recorded in an explicit event trace so that "exactly one bus access per
cycle" style properties can be stated.
-/

/-- CPU register state, from `CpuInterface.State`: 8-bit registers `a`, `x`,
`y`, `s`, the 16-bit program counter `p`, the 8-bit flag byte, and the two
interrupt latches `irq` and `nmi`. -/
structure CpuState where
  a : Nat
  x : Nat
  y : Nat
  s : Nat
  p : Nat
  flags : Nat
  irq : Bool
  nmi : Bool

/-! Modelled from the spec: the flag-byte encoding of `CpuInterface.Flags`
(the interface file is not part of the sources at hand); the spec gives
`N=0x80, V=0x40, E=0x20, B=0x10, D=0x08, I=0x04, Z=0x02, C=0x01`. -/

namespace Flags

def c : Nat := 0x01

def z : Nat := 0x02

def i : Nat := 0x04

def d : Nat := 0x08

def b : Nat := 0x10

def e : Nat := 0x20

def v : Nat := 0x40

def n : Nat := 0x80

end Flags

/-! Modelled from the spec: the cycle kind of a microcycle `Result`
(`StateMachineInterface.CycleType`, a TypeScript numeric enum with members
`read` and `write`; the interface file is not part of the sources at hand).
Kept as `Nat` so that the driver's defensive `default:` branch on an
out-of-range tag remains representable. -/

namespace CycleType

def read : Nat := 0

def write : Nat := 1

end CycleType

/-- A microcycle `Result` (`StateMachineInterface.Result`): cycle kind,
address, value (meaningful on writes), the `pollInterrupts` request, and the
`nextStep` continuation which consumes the bus value, transforms the CPU
state, and yields the next `Result` — or `none` to signal the end of the
instruction. -/
inductive Result where
  | mk
      (cycleType : Nat)
      (address : Nat)
      (value : Nat)
      (pollInterrupts : Bool)
      (nextStep : Nat → CpuState → CpuState × Option Result)

def Result.cycleType : Result → Nat
  | .mk t _ _ _ _ => t

def Result.address : Result → Nat
  | .mk _ a _ _ _ => a

def Result.value : Result → Nat
  | .mk _ _ v _ _ => v

def Result.pollInterrupts : Result → Bool
  | .mk _ _ _ pi _ => pi

def Result.nextStep : Result → Nat → CpuState → CpuState × Option Result
  | .mk _ _ _ _ f => f

/-- A micro-machine collaborator (`StateMachineInterface`): `reset`
re-initializes the machine and returns the first `Result` of the
instruction, possibly transforming the CPU state it owns. -/
structure StateMachine where
  reset : CpuState → CpuState × Result

/-- The micro-machine collaborators a driver is constructed with: the boot,
IRQ-entry and NMI-entry machines and the 256-entry opcode table built by the
compiler (`none` marks an empty slot: an invalid opcode). -/
structure Machines where
  opBoot : StateMachine
  opIrq : StateMachine
  opNmi : StateMachine
  operations : Nat → Option StateMachine

/-- Modelled from the spec: the driver's execution phase
(`CpuInterface.ExecutionState`; the interface file is not part of the
sources at hand): `boot`, `fetch`, `execute`. -/
inductive Phase where
  | boot
  | fetch
  | execute
deriving DecidableEq, Repr

/-- The driver's own state: the owned CPU state, the execution phase, the
pending `Result`, the external request latches, the halt flag, the
poll-at-next-fetch carry-over, and the last instruction pointer. -/
structure Driver where
  state : CpuState
  executionState : Phase
  lastResult : Option Result
  interruptPending : Bool
  nmiPending : Bool
  halt : Bool
  pollInterruptsAfterLastInstruction : Bool
  lastInstructionPointer : Nat

/-- Observable events of one `cycle()` call: bus reads, bus writes, and
invocations of the interrupt-poll step. -/
inductive Event where
  | busRead (address : Nat)
  | busWrite (address : Nat) (value : Nat)
  | poll
deriving DecidableEq, Repr

/-- An event that touches the bus (a read or a write, not a poll). -/
def Event.isBusOp : Event → Bool
  | .busRead _ => true
  | .busWrite _ _ => true
  | .poll => false

/-- The bus operations among a cycle's events. -/
def busOps (evs : List Event) : List Event :=
  evs.filter Event.isBusOp

/-- The number of interrupt-poll invocations among a cycle's events. -/
def pollCount (evs : List Event) : Nat :=
  (evs.filter (fun ev => ev = Event.poll)).length

/-- `_pollInterrupts`: clear `state.irq`; if `nmiPending` is latched promote
it to `state.nmi` and clear the latch; otherwise latch `state.irq` when the
IRQ line is asserted, no NMI is in flight, and the I flag is clear.  Returns
the new CPU state and the new `nmiPending` latch. -/
def pollInterruptsStep (st : CpuState) (interruptPending nmiPending : Bool) :
    CpuState × Bool :=
  let st1 := { st with irq := false }
  if nmiPending then
    ({ st1 with nmi := true }, false)
  else if interruptPending && !st1.nmi && decide (st1.flags &&& Flags.i = 0) then
    ({ st1 with irq := true }, nmiPending)
  else
    (st1, nmiPending)

/-- `_fetch`: run the carried-over interrupt poll if requested, record the
instruction pointer, read the opcode at `p`, then dispatch: NMI entry if the
`nmi` latch is set, else IRQ entry if the `irq` latch is set, else advance
`p` and dispatch through the opcode table (doing nothing further when the
slot is empty — the invalid-instruction callback is not installed). -/
def fetchStep (m : Machines) (bus : Nat → Nat) (d : Driver) : Driver × List Event :=
  let pd := pollInterruptsStep d.state d.interruptPending d.nmiPending
  let d1 :=
    if d.pollInterruptsAfterLastInstruction then
      { d with state := pd.1, nmiPending := pd.2 }
    else d
  let ev0 : List Event :=
    if d.pollInterruptsAfterLastInstruction then [Event.poll] else []
  let d2 := { d1 with lastInstructionPointer := d1.state.p }
  let opcode := bus d2.state.p
  let ev := ev0 ++ [Event.busRead d2.state.p]
  if d2.state.nmi then
    let mr := m.opNmi.reset d2.state
    ({ d2 with
        state := mr.1
        pollInterruptsAfterLastInstruction := false
        executionState := Phase.execute
        lastResult := some mr.2 }, ev)
  else if d2.state.irq then
    let mr := m.opIrq.reset d2.state
    ({ d2 with
        state := mr.1
        pollInterruptsAfterLastInstruction := false
        executionState := Phase.execute
        lastResult := some mr.2 }, ev)
  else
    let d3 := { d2 with
      state := { d2.state with p := (d2.state.p + 1) % 65536 }
      pollInterruptsAfterLastInstruction := true }
    match m.operations opcode with
    | none => (d3, ev)
    | some op =>
        let mr := op.reset d3.state
        ({ d3 with
            state := mr.1
            executionState := Phase.execute
            lastResult := some mr.2 }, ev)

/-- Servicing the pending `Result` in `cycle()` once the bus value is in
hand: honor `pollInterrupts` (running the poll and suppressing the
end-of-instruction poll), call `nextStep`, and transition to `fetch` when
the continuation signals the end of the instruction. -/
def serviceResult (d : Driver) (r : Result) (value : Nat) (ev1 : Event) :
    Driver × List Event :=
  let pd := pollInterruptsStep d.state d.interruptPending d.nmiPending
  let d1 :=
    if r.pollInterrupts then
      { d with
          state := pd.1
          nmiPending := pd.2
          pollInterruptsAfterLastInstruction := false }
    else d
  let ev2 : List Event := if r.pollInterrupts then [Event.poll] else []
  let ns := r.nextStep value d1.state
  let d2 := { d1 with state := ns.1, lastResult := ns.2 }
  let d3 := if ns.2.isNone then { d2 with executionState := Phase.fetch } else d2
  (d3, ev1 :: ev2)

/-- The guard of `cycle()`'s early return: halted and the pending step is a
read (or there is no pending step). -/
def haltSkip (d : Driver) : Bool :=
  d.halt &&
    (match d.lastResult with
     | none => true
     | some r => decide (r.cycleType = CycleType.read))

/-- `cycle()`: one emulated bus tick.  Returns the new driver state and the
trace of observable events, or the message of the exception the source would
throw. -/
def cycle (m : Machines) (bus : Nat → Nat) (d : Driver) :
    Except String (Driver × List Event) :=
  if haltSkip d then
    .ok (d, [])
  else if d.executionState = Phase.fetch then
    .ok (fetchStep m bus d)
  else
    match d.lastResult with
    | none => .error "no pending result"
    | some r =>
        if r.cycleType = CycleType.read then
          .ok (serviceResult d r (bus r.address) (Event.busRead r.address))
        else if r.cycleType = CycleType.write then
          .ok (serviceResult d r r.value (Event.busWrite r.address r.value))
        else .error "invalid cycle type"

/-- The optional RNG collaborator's `int(upper)`, and the source's pattern
`this._rng ? this._rng.int(upper) : 0`. -/
def rngInt (rng : Option (Nat → Nat)) (upper : Nat) : Nat :=
  match rng with
  | some f => f upper
  | none => 0

/-- `reset()`: scramble (or zero) the registers, set `s = 0xFD`, force the
`i`, `e` and `b` flag bits, clear the latches and halt, and start the boot
micro-machine. -/
def resetDriver (m : Machines) (rng : Option (Nat → Nat)) : Driver :=
  let st : CpuState := {
    a := rngInt rng 0xff
    x := rngInt rng 0xff
    y := rngInt rng 0xff
    s := 0xfd
    p := rngInt rng 0xffff
    flags := rngInt rng 0xff ||| Flags.i ||| Flags.e ||| Flags.b
    irq := false
    nmi := false }
  let mr := m.opBoot.reset st
  { state := mr.1
    executionState := Phase.boot
    lastResult := some mr.2
    interruptPending := false
    nmiPending := false
    halt := false
    pollInterruptsAfterLastInstruction := false
    lastInstructionPointer := 0 }

/-- `getLastInstructionPointer()`. -/
def Driver.getLastInstructionPointer (d : Driver) : Nat :=
  d.lastInstructionPointer

/-! ### Concrete collaborators for witnesses and counterexamples -/

/-- A single-cycle microprogram step: a read at `0x1234` ending the
instruction. -/
def res0 : Result :=
  Result.mk CycleType.read 0x1234 0 false (fun _ st => (st, none))

/-- A minimal micro-machine collaborator whose `reset` leaves the CPU state
unchanged and issues `res0`. -/
def trivMachine : StateMachine := ⟨fun st => (st, res0)⟩

/-- A driver environment in which every machine is `trivMachine` and every
opcode slot is populated. -/
def trivMachines : Machines :=
  { opBoot := trivMachine
    opIrq := trivMachine
    opNmi := trivMachine
    operations := fun _ => some trivMachine }

/-! ### C4: the interrupt-poll step -/

/-- Claim C4: the poll step first clears `state.irq`; if `nmiPending` is
latched it promotes it to `state.nmi` and clears the latch regardless of the
I flag; otherwise `state.irq` ends up set exactly when the IRQ line is
asserted, no NMI is in flight, and the I flag is clear — so asserting the
line under I has no effect, and a lowered line cancels a previously latched
`irq`.  All other CPU state is untouched. -/
theorem c4_poll_interrupts (st : CpuState) (ip np : Bool) :
    (pollInterruptsStep st ip np).2 = false ∧
    (pollInterruptsStep st ip np).1.nmi = (st.nmi || np) ∧
    (pollInterruptsStep st ip np).1.irq =
      (!np && ip && !st.nmi && decide (st.flags &&& Flags.i = 0)) ∧
    (pollInterruptsStep st ip np).1.p = st.p ∧
    (pollInterruptsStep st ip np).1.flags = st.flags ∧
    (pollInterruptsStep st ip np).1.a = st.a ∧
    (pollInterruptsStep st ip np).1.x = st.x ∧
    (pollInterruptsStep st ip np).1.y = st.y ∧
    (pollInterruptsStep st ip np).1.s = st.s := by
  cases np <;> cases ip <;> simp [pollInterruptsStep] <;> split <;> simp_all

/-! ### C1: reset without an RNG collaborator -/

/-- Claim C1, counterexample: after `reset()` on a driver constructed
without an RNG collaborator the flag byte is `0x34` (`I`, `E` and `B` set,
because `reset` forces the `b` bit as well), not `0x24` as claimed. -/
theorem c1_counterexample :
    (resetDriver trivMachines none).state.flags = 0x34 ∧
    (resetDriver trivMachines none).state.flags ≠ 0x24 := by
  constructor <;> decide

/-- Claim C1 (amended): after `reset()` on a driver without an RNG
collaborator — for any collaborator set whose boot machine's `reset` leaves
the register state unchanged, as the real boot machine does — the registers
are `a = x = y = 0`, `s = 0xFD`, the flag byte is `0x34` (exactly `I`, `E`
and `B` set per the flag encoding), and the `irq`/`nmi` latches, the
external pending latches, and the halt flag are all clear. -/
theorem c1_reset_no_rng (m : Machines)
    (hboot : ∀ st, (m.opBoot.reset st).1 = st) :
    (resetDriver m none).state.a = 0 ∧
    (resetDriver m none).state.x = 0 ∧
    (resetDriver m none).state.y = 0 ∧
    (resetDriver m none).state.s = 0xfd ∧
    (resetDriver m none).state.flags = 0x34 ∧
    (resetDriver m none).state.irq = false ∧
    (resetDriver m none).state.nmi = false ∧
    (resetDriver m none).interruptPending = false ∧
    (resetDriver m none).nmiPending = false ∧
    (resetDriver m none).halt = false ∧
    (resetDriver m none).executionState = Phase.boot := by
  simp [resetDriver, rngInt, hboot]
  decide

/-- Claim C1 (amended), witness at the concrete collaborators. -/
theorem c1_reset_no_rng_witness :
    (resetDriver trivMachines none).state.a = 0 ∧
    (resetDriver trivMachines none).state.x = 0 ∧
    (resetDriver trivMachines none).state.y = 0 ∧
    (resetDriver trivMachines none).state.s = 0xfd ∧
    (resetDriver trivMachines none).state.flags = 0x34 ∧
    (resetDriver trivMachines none).state.irq = false ∧
    (resetDriver trivMachines none).state.nmi = false ∧
    (resetDriver trivMachines none).interruptPending = false ∧
    (resetDriver trivMachines none).nmiPending = false ∧
    (resetDriver trivMachines none).halt = false ∧
    (resetDriver trivMachines none).executionState = Phase.boot :=
  c1_reset_no_rng trivMachines (fun _ => rfl)

/-! ### Helper lemmas on the poll step -/

/-- Clearing an already-clear `irq` latch leaves the CPU state unchanged. -/
theorem CpuState.setIrqFalse_eq (st : CpuState) (h : st.irq = false) :
    { st with irq := false } = st := by
  cases st
  simp_all

/-- The poll step never touches the program counter. -/
theorem pollInterruptsStep_p (st : CpuState) (ip np : Bool) :
    (pollInterruptsStep st ip np).1.p = st.p := by
  cases np <;> cases ip <;> simp [pollInterruptsStep] <;> split <;> rfl

/-! ### C2: invalid opcodes without a callback -/

/-- A driver environment whose opcode table is entirely empty. -/
def emptyMachines : Machines :=
  { opBoot := trivMachine
    opIrq := trivMachine
    opNmi := trivMachine
    operations := fun _ => none }

/-- A quiescent register state with the program counter at `0x200`. -/
def st200 : CpuState :=
  { a := 0, x := 0, y := 0, s := 0xfd, p := 0x200, flags := 0x34,
    irq := false, nmi := false }

/-- A driver about to fetch at `0x200`, with no interrupts pending. -/
def dFetch200 : Driver :=
  { state := st200
    executionState := Phase.fetch
    lastResult := none
    interruptPending := false
    nmiPending := false
    halt := false
    pollInterruptsAfterLastInstruction := false
    lastInstructionPointer := 0 }

/-- A bus that always delivers the byte `0x02`. -/
def busZero : Nat → Nat := fun _ => 0x02

/-- Run one `cycle()` and strip the (here always absent) error case. -/
def stepOk (m : Machines) (bus : Nat → Nat) (d : Driver) : Driver × List Event :=
  match cycle m bus d with
  | .ok x => x
  | .error _ => (d, [])

/-- Claim C2, counterexample: with an empty opcode table and no callback,
the first `cycle()` from a fetch at `0x200` reads `0x200` and stays in
phase `fetch` — but it advances `p`, so the next `cycle()` reads `0x201`,
not the same bad opcode address again as claimed. -/
theorem c2_counterexample :
    (stepOk emptyMachines busZero dFetch200).2 = [Event.busRead 0x200] ∧
    (stepOk emptyMachines busZero dFetch200).1.executionState = Phase.fetch ∧
    (stepOk emptyMachines busZero dFetch200).1.state.p = 0x201 ∧
    (stepOk emptyMachines busZero
        (stepOk emptyMachines busZero dFetch200).1).2 =
      [Event.poll, Event.busRead 0x201] ∧
    Event.busRead 0x200 ∉
      busOps (stepOk emptyMachines busZero
        (stepOk emptyMachines busZero dFetch200).1).2 := by
  decide

/-- Claim C2 (amended): when the fetch stage hits an opcode whose table slot
is empty and no invalid-instruction callback is installed, `cycle()` leaves
the driver in phase `fetch` and leaves `lastResult` untouched, but it still
advances `p` to `(p + 1) mod 2^16` and arms the fetch-time poll — so each
subsequent `cycle()` fetches at the *next* address rather than re-reading
the same bad opcode. -/
theorem c2_invalid_opcode (m : Machines) (bus : Nat → Nat) (d : Driver)
    (hhalt : d.halt = false)
    (hphase : d.executionState = Phase.fetch)
    (hnmi : d.state.nmi = false)
    (hirq : d.state.irq = false)
    (hnp : d.nmiPending = false)
    (hip : d.interruptPending = false)
    (hop : m.operations (bus d.state.p) = none) :
    cycle m bus d =
      .ok ({ d with
              state := { d.state with p := (d.state.p + 1) % 65536 }
              nmiPending := false
              pollInterruptsAfterLastInstruction := true
              lastInstructionPointer := d.state.p },
           (if d.pollInterruptsAfterLastInstruction then [Event.poll] else []) ++
             [Event.busRead d.state.p]) := by
  cases d with
  | mk st phase lr ip np hl pa lip =>
    cases st with
    | mk a x y s p fl irq nmi =>
      simp only at hhalt hphase hnmi hirq hnp hip
      subst hhalt hphase hnmi hirq hnp hip
      cases pa <;>
        simp [cycle, haltSkip, fetchStep, pollInterruptsStep, hop]

/-- Claim C2 (amended), witness at the concrete empty-table driver. -/
theorem c2_invalid_opcode_witness :
    cycle emptyMachines busZero dFetch200 =
      .ok ({ dFetch200 with
              state := { dFetch200.state with p := (dFetch200.state.p + 1) % 65536 }
              nmiPending := false
              pollInterruptsAfterLastInstruction := true
              lastInstructionPointer := dFetch200.state.p },
           (if dFetch200.pollInterruptsAfterLastInstruction then [Event.poll]
            else []) ++ [Event.busRead dFetch200.state.p]) :=
  c2_invalid_opcode emptyMachines busZero dFetch200 rfl rfl rfl rfl rfl rfl rfl

/-! ### C3: the fetch-phase dispatch -/

/-- The CPU state and `nmiPending` latch after the optional carried-over
poll at the start of `_fetch`. -/
def postPollState (d : Driver) : CpuState × Bool :=
  if d.pollInterruptsAfterLastInstruction then
    pollInterruptsStep d.state d.interruptPending d.nmiPending
  else (d.state, d.nmiPending)

/-- The poll events emitted at the start of `_fetch`. -/
def fetchPollEvents (d : Driver) : List Event :=
  if d.pollInterruptsAfterLastInstruction then [Event.poll] else []

/-- The optional carried-over poll never moves the program counter. -/
theorem postPollState_p (d : Driver) : (postPollState d).1.p = d.state.p := by
  rw [postPollState]
  split
  · exact pollInterruptsStep_p _ _ _
  · rfl

/-- The address of the pending `Result`, if any. -/
def pendingAddress : Option Result → Option Nat
  | some r => some r.address
  | none => none

/-- An IRQ-entry machine marked by issuing a read at `0xAAAA`. -/
def irqMarkerMachine : StateMachine :=
  ⟨fun st => (st, Result.mk CycleType.read 0xAAAA 0 false (fun _ s => (s, none)))⟩

/-- A table machine marked by issuing a read at `0xBBBB`. -/
def tableMarkerMachine : StateMachine :=
  ⟨fun st => (st, Result.mk CycleType.read 0xBBBB 0 false (fun _ s => (s, none)))⟩

/-- Collaborators distinguishing IRQ entry from a table dispatch. -/
def c3Machines : Machines :=
  { opBoot := trivMachine
    opIrq := irqMarkerMachine
    opNmi := trivMachine
    operations := fun _ => some tableMarkerMachine }

/-- The final microcycle of an SEI-like instruction: a read whose `Result`
requests an interrupt poll, after which the continuation sets the I flag and
ends the instruction. -/
def seiResult : Result :=
  Result.mk CycleType.read 0x300 0 true
    (fun _ st => ({ st with flags := st.flags ||| Flags.i }, none))

/-- A driver one cycle from finishing the SEI-like instruction, with the
IRQ line asserted and the I flag still clear. -/
def dSei : Driver :=
  { state := { a := 0, x := 0, y := 0, s := 0xfd, p := 0x400, flags := 0x20,
               irq := false, nmi := false }
    executionState := Phase.execute
    lastResult := some seiResult
    interruptPending := true
    nmiPending := false
    halt := false
    pollInterruptsAfterLastInstruction := true
    lastInstructionPointer := 0 }

/-- Claim C3, counterexample: finishing the SEI-like instruction latches
`irq` (the poll ran while I was clear) and then sets the I flag, so the next
fetch sees `state.irq = true` with I set.  Contrary to the claim — which
would demand the opcode-table dispatch with `p` advanced because I is set —
the driver starts the IRQ entry machine (the pending address is the IRQ
marker `0xAAAA`, not the table marker `0xBBBB`) and does not advance `p`. -/
theorem c3_counterexample :
    (stepOk c3Machines busZero dSei).1.state.irq = true ∧
    (stepOk c3Machines busZero dSei).1.state.flags &&& Flags.i = Flags.i ∧
    (stepOk c3Machines busZero dSei).1.executionState = Phase.fetch ∧
    (stepOk c3Machines busZero dSei).1.state.p = 0x400 ∧
    (stepOk c3Machines busZero
        (stepOk c3Machines busZero dSei).1).1.state.p = 0x400 ∧
    pendingAddress (stepOk c3Machines busZero
        (stepOk c3Machines busZero dSei).1).1.lastResult = some 0xAAAA ∧
    (0x400 : Nat) ≠ (0x400 + 1) % 65536 := by
  refine ⟨rfl, rfl, rfl, rfl, rfl, rfl, by decide⟩

/-- Claim C3 (amended): in phase `fetch` (not halted), `cycle()` runs the
optional carried-over poll, reads the opcode at `p`, and dispatches on the
post-poll latches: if `nmi` is set it starts the NMI entry machine without
advancing `p`; else if `irq` is set — regardless of the I flag, which was
already taken into account when the poll latched `irq` — it starts the IRQ
entry machine without advancing `p`; otherwise it sets
`p = (p + 1) mod 2^16` and starts the machine from the opcode table. -/
theorem c3_fetch_dispatch (m : Machines) (bus : Nat → Nat) (d : Driver)
    (hhalt : d.halt = false)
    (hphase : d.executionState = Phase.fetch) :
    ((postPollState d).1.nmi = true →
      cycle m bus d = .ok
        ({ d with
            state := (m.opNmi.reset (postPollState d).1).1
            nmiPending := (postPollState d).2
            executionState := Phase.execute
            lastResult := some (m.opNmi.reset (postPollState d).1).2
            pollInterruptsAfterLastInstruction := false
            lastInstructionPointer := d.state.p },
         fetchPollEvents d ++ [Event.busRead d.state.p])) ∧
    ((postPollState d).1.nmi = false → (postPollState d).1.irq = true →
      cycle m bus d = .ok
        ({ d with
            state := (m.opIrq.reset (postPollState d).1).1
            nmiPending := (postPollState d).2
            executionState := Phase.execute
            lastResult := some (m.opIrq.reset (postPollState d).1).2
            pollInterruptsAfterLastInstruction := false
            lastInstructionPointer := d.state.p },
         fetchPollEvents d ++ [Event.busRead d.state.p])) ∧
    ((postPollState d).1.nmi = false → (postPollState d).1.irq = false →
      ∀ op, m.operations (bus d.state.p) = some op →
      cycle m bus d = .ok
        ({ d with
            state :=
              (op.reset
                { (postPollState d).1 with p := (d.state.p + 1) % 65536 }).1
            nmiPending := (postPollState d).2
            executionState := Phase.execute
            lastResult :=
              some (op.reset
                { (postPollState d).1 with p := (d.state.p + 1) % 65536 }).2
            pollInterruptsAfterLastInstruction := true
            lastInstructionPointer := d.state.p },
         fetchPollEvents d ++ [Event.busRead d.state.p])) := by
  cases d with
  | mk st phase lr ip np hl pa lip =>
    simp only at hhalt hphase
    subst hhalt hphase
    refine ⟨?_, ?_, ?_⟩
    · intro hnmi
      cases pa <;>
        simp_all [cycle, haltSkip, fetchStep, postPollState, fetchPollEvents,
          pollInterruptsStep_p]
    · intro hnmi hirq
      cases pa <;>
        simp_all [cycle, haltSkip, fetchStep, postPollState, fetchPollEvents,
          pollInterruptsStep_p]
    · intro hnmi hirq op hop
      cases pa <;>
        simp_all [cycle, haltSkip, fetchStep, postPollState, fetchPollEvents,
          pollInterruptsStep_p]

/-- Claim C3 (amended), witness: the table-dispatch arm at the concrete
driver `dFetch200`. -/
theorem c3_fetch_dispatch_witness :
    cycle trivMachines busZero dFetch200 = .ok
      ({ dFetch200 with
          state :=
            (trivMachine.reset
              { (postPollState dFetch200).1 with
                  p := (dFetch200.state.p + 1) % 65536 }).1
          nmiPending := (postPollState dFetch200).2
          executionState := Phase.execute
          lastResult :=
            some (trivMachine.reset
              { (postPollState dFetch200).1 with
                  p := (dFetch200.state.p + 1) % 65536 }).2
          pollInterruptsAfterLastInstruction := true
          lastInstructionPointer := dFetch200.state.p },
       fetchPollEvents dFetch200 ++ [Event.busRead dFetch200.state.p]) :=
  (c3_fetch_dispatch trivMachines busZero dFetch200 rfl rfl).2.2 rfl rfl
    trivMachine rfl

/-! ### Helper lemmas on cycle structure -/

/-- A non-halted driver never takes the early-return guard. -/
theorem haltSkip_of_not_halt (d : Driver) (h : d.halt = false) :
    haltSkip d = false := by
  simp [haltSkip, h]

/-- The events of a fetch cycle: the optional poll followed by the opcode
read at `p`. -/
theorem fetchStep_events (m : Machines) (bus : Nat → Nat) (d : Driver) :
    (fetchStep m bus d).2 = fetchPollEvents d ++ [Event.busRead d.state.p] := by
  simp only [fetchStep]
  repeat' split
  all_goals simp_all [fetchPollEvents, pollInterruptsStep_p]

/-! ### C9: `cycle()` never reaches the invalid-cycle-type throw -/

/-- A driver mid-instruction, about to service the read `res0`. -/
def dExec : Driver :=
  { state := st200
    executionState := Phase.execute
    lastResult := some res0
    interruptPending := false
    nmiPending := false
    halt := false
    pollInterruptsAfterLastInstruction := false
    lastInstructionPointer := 0 }

/-- Claim C9: under the reachable-state precondition — outside the fetch
phase a pending `Result` exists and its cycle type is `read` or `write`,
which holds for every `Result` a micro-machine produces — `cycle()` never
throws: neither the `invalid cycle type` branch nor any other error is
reachable. -/
theorem c9_cycle_total (m : Machines) (bus : Nat → Nat) (d : Driver)
    (hwf : d.executionState ≠ Phase.fetch →
      ∃ r, d.lastResult = some r ∧
        (r.cycleType = CycleType.read ∨ r.cycleType = CycleType.write)) :
    ∃ x, cycle m bus d = .ok x := by
  by_cases hs : haltSkip d
  · exact ⟨(d, []), by simp [cycle, hs]⟩
  · by_cases hp : d.executionState = Phase.fetch
    · exact ⟨fetchStep m bus d, by simp [cycle, hs, hp]⟩
    · obtain ⟨r, hr, hty⟩ := hwf hp
      rcases hty with h | h
      · exact ⟨serviceResult d r (bus r.address) (Event.busRead r.address),
          by simp [cycle, hs, hp, hr, h]⟩
      · exact ⟨serviceResult d r r.value (Event.busWrite r.address r.value),
          by simp [cycle, hs, hp, hr, h, CycleType.read, CycleType.write]⟩

/-- Claim C9, witness at a concrete mid-instruction driver. -/
theorem c9_cycle_total_witness :
    ∃ x, cycle trivMachines busZero dExec = .ok x :=
  c9_cycle_total trivMachines busZero dExec
    (fun _ => ⟨res0, rfl, Or.inl rfl⟩)

/-! ### C7: at most one bus operation per cycle -/

/-- Claim C7: every `cycle()` performs at most one bus operation, and
exactly one when the driver is not halted (given the reachable-state
precondition on the pending `Result`): the fetch phase performs the one
opcode read, the execute path the one read or write of the current
`Result`. -/
theorem c7_one_bus_op (m : Machines) (bus : Nat → Nat) (d : Driver)
    (hwf : d.executionState ≠ Phase.fetch →
      ∃ r, d.lastResult = some r ∧
        (r.cycleType = CycleType.read ∨ r.cycleType = CycleType.write)) :
    ∃ d' evs, cycle m bus d = .ok (d', evs) ∧
      (busOps evs).length ≤ 1 ∧
      (d.halt = false → (busOps evs).length = 1) := by
  by_cases hs : haltSkip d
  · refine ⟨d, [], by simp [cycle, hs], by simp [busOps], ?_⟩
    intro hh
    simp [haltSkip, hh] at hs
  · by_cases hp : d.executionState = Phase.fetch
    · refine ⟨(fetchStep m bus d).1, (fetchStep m bus d).2,
        by simp [cycle, hs, hp], ?_, fun _ => ?_⟩ <;>
        rw [fetchStep_events] <;>
        simp [busOps, fetchPollEvents, Event.isBusOp] <;>
        split <;> simp
    · obtain ⟨r, hr, hty⟩ := hwf hp
      rcases hty with h | h
      · refine ⟨(serviceResult d r (bus r.address) (Event.busRead r.address)).1,
          (serviceResult d r (bus r.address) (Event.busRead r.address)).2,
          by simp [cycle, hs, hp, hr, h], ?_, fun _ => ?_⟩ <;>
          simp [serviceResult, busOps, Event.isBusOp] <;>
          split <;> simp
      · refine ⟨(serviceResult d r r.value (Event.busWrite r.address r.value)).1,
          (serviceResult d r r.value (Event.busWrite r.address r.value)).2,
          by simp [cycle, hs, hp, hr, h, CycleType.read, CycleType.write],
          ?_, fun _ => ?_⟩ <;>
          simp [serviceResult, busOps, Event.isBusOp] <;>
          split <;> simp

/-- Claim C7, witness at a concrete mid-instruction driver. -/
theorem c7_one_bus_op_witness :
    ∃ d' evs, cycle trivMachines busZero dExec = .ok (d', evs) ∧
      (busOps evs).length ≤ 1 ∧
      (dExec.halt = false → (busOps evs).length = 1) :=
  c7_one_bus_op trivMachines busZero dExec
    (fun _ => ⟨res0, rfl, Or.inl rfl⟩)

/-! ### C6: no bus reads while halted -/

/-- Claim C6: while halted (in a reachable state, where phase `fetch`
implies no pending `Result`), `cycle()` performs no bus read at all; when
the pending step is a read or absent it returns at once with no bus action
and no state change, and when the pending step is a write the write is
still put on the bus. -/
theorem c6_halt_no_read (m : Machines) (bus : Nat → Nat) (d : Driver)
    (hhalt : d.halt = true)
    (hwf : d.executionState = Phase.fetch → d.lastResult = none) :
    (∀ d' evs, cycle m bus d = .ok (d', evs) →
      ∀ a, Event.busRead a ∉ evs) ∧
    ((d.lastResult = none ∨
        ∃ r, d.lastResult = some r ∧ r.cycleType = CycleType.read) →
      cycle m bus d = .ok (d, [])) ∧
    (∀ r, d.lastResult = some r → r.cycleType = CycleType.write →
      cycle m bus d =
        .ok (serviceResult d r r.value (Event.busWrite r.address r.value)) ∧
      Event.busWrite r.address r.value ∈
        (serviceResult d r r.value (Event.busWrite r.address r.value)).2) := by
  have hskip : ∀ r, d.lastResult = some r → r.cycleType = CycleType.read →
      haltSkip d = true := by
    intro r hr hty
    simp [haltSkip, hhalt, hr, hty]
  have hskipn : d.lastResult = none → haltSkip d = true := by
    intro hr
    simp [haltSkip, hhalt, hr]
  refine ⟨?_, ?_, ?_⟩
  · intro d' evs hc a
    cases hr : d.lastResult with
    | none =>
        rw [show cycle m bus d = .ok (d, []) from by simp [cycle, hskipn hr]]
          at hc
        rcases hc with ⟨rfl, rfl⟩
        simp
    | some r =>
        by_cases hty : r.cycleType = CycleType.read
        · rw [show cycle m bus d = .ok (d, []) from by
            simp [cycle, hskip r hr hty]] at hc
          rcases hc with ⟨rfl, rfl⟩
          simp
        · have hp : d.executionState ≠ Phase.fetch := by
            intro hf
            rw [hwf hf] at hr
            cases hr
          have hs : haltSkip d = false := by
            simp [haltSkip, hhalt, hr, hty]
          by_cases hw : r.cycleType = CycleType.write
          · rw [show cycle m bus d =
                .ok (serviceResult d r r.value
                  (Event.busWrite r.address r.value)) from by
              simp [cycle, hs, hp, hr, hty, hw, CycleType.read,
                CycleType.write]] at hc
            rcases hc with ⟨rfl, rfl⟩
            simp [serviceResult]
          · rw [show cycle m bus d = .error "invalid cycle type" from by
              simp [cycle, hs, hp, hr, hty, hw]] at hc
            cases hc
  · intro hcase
    rcases hcase with hr | ⟨r, hr, hty⟩
    · simp [cycle, hskipn hr]
    · simp [cycle, hskip r hr hty]
  · intro r hr hty
    have hp : d.executionState ≠ Phase.fetch := by
      intro hf
      rw [hwf hf] at hr
      cases hr
    have hread : ¬r.cycleType = CycleType.read := by
      rw [hty]
      simp [CycleType.read, CycleType.write]
    have hs : haltSkip d = false := by
      simp [haltSkip, hhalt, hr, hread]
    constructor
    · simp [cycle, hs, hp, hr, hread, hty, CycleType.read, CycleType.write]
    · simp [serviceResult]

/-- A halted driver with the pending read `res0`. -/
def dHaltRead : Driver :=
  { state := st200
    executionState := Phase.execute
    lastResult := some res0
    interruptPending := false
    nmiPending := false
    halt := true
    pollInterruptsAfterLastInstruction := false
    lastInstructionPointer := 0 }

/-- Claim C6, witness at a concrete halted driver with a pending read. -/
theorem c6_halt_no_read_witness :
    (∀ d' evs, cycle trivMachines busZero dHaltRead = .ok (d', evs) →
      ∀ a, Event.busRead a ∉ evs) ∧
    ((dHaltRead.lastResult = none ∨
        ∃ r, dHaltRead.lastResult = some r ∧
          r.cycleType = CycleType.read) →
      cycle trivMachines busZero dHaltRead = .ok (dHaltRead, [])) ∧
    (∀ r, dHaltRead.lastResult = some r → r.cycleType = CycleType.write →
      cycle trivMachines busZero dHaltRead =
        .ok (serviceResult dHaltRead r r.value
          (Event.busWrite r.address r.value)) ∧
      Event.busWrite r.address r.value ∈
        (serviceResult dHaltRead r r.value
          (Event.busWrite r.address r.value)).2) :=
  c6_halt_no_read trivMachines busZero dHaltRead rfl
    (fun h => absurd h (by decide))

/-! ### C10: halted writes still advance the micro-machine -/

/-- Component-wise description of `serviceResult`: the event trace, and how
each driver field evolves when a pending `Result` is serviced with the bus
value `value`. -/
theorem serviceResult_spec (d : Driver) (r : Result) (value : Nat) (ev1 : Event) :
    ((serviceResult d r value ev1).2 =
      ev1 :: (if r.pollInterrupts then [Event.poll] else [])) ∧
    ((serviceResult d r value ev1).1.state =
      (r.nextStep value
        (if r.pollInterrupts then
          (pollInterruptsStep d.state d.interruptPending d.nmiPending).1
        else d.state)).1) ∧
    ((serviceResult d r value ev1).1.lastResult =
      (r.nextStep value
        (if r.pollInterrupts then
          (pollInterruptsStep d.state d.interruptPending d.nmiPending).1
        else d.state)).2) ∧
    ((serviceResult d r value ev1).1.halt = d.halt) ∧
    ((serviceResult d r value ev1).1.interruptPending = d.interruptPending) ∧
    ((serviceResult d r value ev1).1.lastInstructionPointer =
      d.lastInstructionPointer) ∧
    ((serviceResult d r value ev1).1.nmiPending =
      (if r.pollInterrupts then
        (pollInterruptsStep d.state d.interruptPending d.nmiPending).2
      else d.nmiPending)) ∧
    ((serviceResult d r value ev1).1.pollInterruptsAfterLastInstruction =
      (if r.pollInterrupts then false
       else d.pollInterruptsAfterLastInstruction)) ∧
    ((serviceResult d r value ev1).1.executionState =
      (if ((r.nextStep value
          (if r.pollInterrupts then
            (pollInterruptsStep d.state d.interruptPending d.nmiPending).1
          else d.state)).2).isNone then Phase.fetch
       else d.executionState)) := by
  obtain ⟨st, phase, lr, ip, np, hl, pa, lip⟩ := d
  obtain ⟨ct, ad, vl, pi, f⟩ := r
  cases pi <;>
    (try simp [serviceResult, Result.pollInterrupts, Result.nextStep]) <;>
    (try rfl) <;>
    (try (split <;> simp))

/-- Claim C10: while halted, a `cycle()` that services a pending write
`Result` issues the write and still invokes the `nextStep` continuation:
the CPU state advances to whatever the continuation computes (on top of the
post-poll state if the `Result` requested a poll), `lastResult` moves on,
and the phase transitions to `fetch` when the continuation ends the
instruction — all with `halt` still set. -/
theorem c10_halted_write_advances (m : Machines) (bus : Nat → Nat)
    (d : Driver) (r : Result)
    (hhalt : d.halt = true)
    (hphase : d.executionState ≠ Phase.fetch)
    (hlr : d.lastResult = some r)
    (hty : r.cycleType = CycleType.write) :
    ∃ d', cycle m bus d =
        .ok (d', Event.busWrite r.address r.value ::
          (if r.pollInterrupts then [Event.poll] else [])) ∧
      d'.state =
        (r.nextStep r.value
          (if r.pollInterrupts then
            (pollInterruptsStep d.state d.interruptPending d.nmiPending).1
          else d.state)).1 ∧
      d'.lastResult =
        (r.nextStep r.value
          (if r.pollInterrupts then
            (pollInterruptsStep d.state d.interruptPending d.nmiPending).1
          else d.state)).2 ∧
      d'.halt = true ∧
      ((r.nextStep r.value
          (if r.pollInterrupts then
            (pollInterruptsStep d.state d.interruptPending d.nmiPending).1
          else d.state)).2 = none →
        d'.executionState = Phase.fetch) := by
  have hread : ¬r.cycleType = CycleType.read := by
    rw [hty]
    simp [CycleType.read, CycleType.write]
  have hs : haltSkip d = false := by
    simp [haltSkip, hhalt, hlr, hread]
  have hcy : cycle m bus d =
      .ok (serviceResult d r r.value (Event.busWrite r.address r.value)) := by
    simp [cycle, hs, hphase, hlr, hread, hty, CycleType.read, CycleType.write]
  obtain ⟨hev, hst, hlast, hh, -, -, -, -, hexec⟩ :=
    serviceResult_spec d r r.value (Event.busWrite r.address r.value)
  refine ⟨(serviceResult d r r.value (Event.busWrite r.address r.value)).1,
    ?_, hst, hlast, by rw [hh, hhalt], ?_⟩
  · rw [hcy, ← hev]
  · intro hdone
    rw [hexec, hdone]
    simp

/-- A single-cycle write microprogram step whose continuation increments the
accumulator, for observing progress while halted. -/
def resW : Result :=
  Result.mk CycleType.write 0x80 0x42 false
    (fun _ st => ({ st with a := (st.a + 1) % 256 }, none))

/-- A halted driver with the pending write `resW`. -/
def dHaltWrite : Driver :=
  { state := st200
    executionState := Phase.execute
    lastResult := some resW
    interruptPending := false
    nmiPending := false
    halt := true
    pollInterruptsAfterLastInstruction := false
    lastInstructionPointer := 0 }

/-- Claim C10, witness at a concrete halted driver with a pending write. -/
theorem c10_halted_write_advances_witness :
    ∃ d', cycle trivMachines busZero dHaltWrite =
        .ok (d', Event.busWrite resW.address resW.value ::
          (if resW.pollInterrupts then [Event.poll] else [])) ∧
      d'.state =
        (resW.nextStep resW.value
          (if resW.pollInterrupts then
            (pollInterruptsStep dHaltWrite.state dHaltWrite.interruptPending
              dHaltWrite.nmiPending).1
          else dHaltWrite.state)).1 ∧
      d'.lastResult =
        (resW.nextStep resW.value
          (if resW.pollInterrupts then
            (pollInterruptsStep dHaltWrite.state dHaltWrite.interruptPending
              dHaltWrite.nmiPending).1
          else dHaltWrite.state)).2 ∧
      d'.halt = true ∧
      ((resW.nextStep resW.value
          (if resW.pollInterrupts then
            (pollInterruptsStep dHaltWrite.state dHaltWrite.interruptPending
              dHaltWrite.nmiPending).1
          else dHaltWrite.state)).2 = none →
        d'.executionState = Phase.fetch) :=
  c10_halted_write_advances trivMachines busZero dHaltWrite resW rfl
    (by decide) rfl rfl

/-! ### C5: interrupts are polled at most once per instruction boundary -/

/-- When the post-poll latches dispatch through the opcode table, the fetch
arms the end-of-instruction fallback poll. -/
theorem fetchStep_pollAfter (m : Machines) (bus : Nat → Nat) (d : Driver)
    (h1 : (postPollState d).1.nmi = false)
    (h2 : (postPollState d).1.irq = false) :
    (fetchStep m bus d).1.pollInterruptsAfterLastInstruction = true := by
  obtain ⟨st, phase, lr, ip, np, hl, pa, lip⟩ := d
  cases pa <;>
    simp_all [fetchStep, postPollState] <;>
    (try (split <;> simp))

/-- Claim C5: the driver polls at most once per instruction boundary.
Servicing a `Result` with `pollInterrupts` set runs the poll during that
cycle and clears the fetch-time carry-over; servicing one without it never
polls and leaves the carry-over untouched; a fetch polls exactly when the
carry-over is armed; and a fetch that dispatches through the opcode table
re-arms the carry-over for the next boundary. -/
theorem c5_poll_once_per_boundary (m : Machines) (bus : Nat → Nat) :
    (∀ d r, d.halt = false → d.executionState ≠ Phase.fetch →
      d.lastResult = some r →
      (r.cycleType = CycleType.read ∨ r.cycleType = CycleType.write) →
      r.pollInterrupts = true →
      ∃ d' evs, cycle m bus d = .ok (d', evs) ∧ pollCount evs = 1 ∧
        d'.pollInterruptsAfterLastInstruction = false) ∧
    (∀ d r, d.halt = false → d.executionState ≠ Phase.fetch →
      d.lastResult = some r →
      (r.cycleType = CycleType.read ∨ r.cycleType = CycleType.write) →
      r.pollInterrupts = false →
      ∃ d' evs, cycle m bus d = .ok (d', evs) ∧ pollCount evs = 0 ∧
        d'.pollInterruptsAfterLastInstruction =
          d.pollInterruptsAfterLastInstruction) ∧
    (∀ d, d.halt = false → d.executionState = Phase.fetch →
      d.pollInterruptsAfterLastInstruction = false →
      ∃ d' evs, cycle m bus d = .ok (d', evs) ∧ pollCount evs = 0) ∧
    (∀ d, d.halt = false → d.executionState = Phase.fetch →
      d.pollInterruptsAfterLastInstruction = true →
      ∃ d' evs, cycle m bus d = .ok (d', evs) ∧ pollCount evs = 1) ∧
    (∀ d, d.halt = false → d.executionState = Phase.fetch →
      (postPollState d).1.nmi = false → (postPollState d).1.irq = false →
      ∃ d' evs, cycle m bus d = .ok (d', evs) ∧
        d'.pollInterruptsAfterLastInstruction = true) := by
  refine ⟨?_, ?_, ?_, ?_, ?_⟩
  · intro d r hh hp hlr hty hpi
    have hs := haltSkip_of_not_halt d hh
    rcases hty with h | h
    · obtain ⟨hev, -, -, -, -, -, -, hpa, -⟩ :=
        serviceResult_spec d r (bus r.address) (Event.busRead r.address)
      refine ⟨(serviceResult d r (bus r.address) (Event.busRead r.address)).1,
        (serviceResult d r (bus r.address) (Event.busRead r.address)).2,
        by simp [cycle, hs, hp, hlr, h], ?_, ?_⟩
      · rw [hev]
        simp [pollCount, hpi]
      · rw [hpa]
        simp [hpi]
    · obtain ⟨hev, -, -, -, -, -, -, hpa, -⟩ :=
        serviceResult_spec d r r.value (Event.busWrite r.address r.value)
      refine ⟨(serviceResult d r r.value (Event.busWrite r.address r.value)).1,
        (serviceResult d r r.value (Event.busWrite r.address r.value)).2,
        by simp [cycle, hs, hp, hlr, h, CycleType.read, CycleType.write],
        ?_, ?_⟩
      · rw [hev]
        simp [pollCount, hpi]
      · rw [hpa]
        simp [hpi]
  · intro d r hh hp hlr hty hpi
    have hs := haltSkip_of_not_halt d hh
    rcases hty with h | h
    · obtain ⟨hev, -, -, -, -, -, -, hpa, -⟩ :=
        serviceResult_spec d r (bus r.address) (Event.busRead r.address)
      refine ⟨(serviceResult d r (bus r.address) (Event.busRead r.address)).1,
        (serviceResult d r (bus r.address) (Event.busRead r.address)).2,
        by simp [cycle, hs, hp, hlr, h], ?_, ?_⟩
      · rw [hev]
        simp [pollCount, hpi]
      · rw [hpa]
        simp [hpi]
    · obtain ⟨hev, -, -, -, -, -, -, hpa, -⟩ :=
        serviceResult_spec d r r.value (Event.busWrite r.address r.value)
      refine ⟨(serviceResult d r r.value (Event.busWrite r.address r.value)).1,
        (serviceResult d r r.value (Event.busWrite r.address r.value)).2,
        by simp [cycle, hs, hp, hlr, h, CycleType.read, CycleType.write],
        ?_, ?_⟩
      · rw [hev]
        simp [pollCount, hpi]
      · rw [hpa]
        simp [hpi]
  · intro d hh hp hpa
    have hs := haltSkip_of_not_halt d hh
    refine ⟨(fetchStep m bus d).1, (fetchStep m bus d).2,
      by simp [cycle, hs, hp], ?_⟩
    rw [fetchStep_events]
    simp [fetchPollEvents, hpa, pollCount]
  · intro d hh hp hpa
    have hs := haltSkip_of_not_halt d hh
    refine ⟨(fetchStep m bus d).1, (fetchStep m bus d).2,
      by simp [cycle, hs, hp], ?_⟩
    rw [fetchStep_events]
    simp [fetchPollEvents, hpa, pollCount]
  · intro d hh hp h1 h2
    have hs := haltSkip_of_not_halt d hh
    exact ⟨(fetchStep m bus d).1, (fetchStep m bus d).2,
      by simp [cycle, hs, hp], fetchStep_pollAfter m bus d h1 h2⟩

/-- Claim C5, witness: the polling arm at the concrete SEI-like driver. -/
theorem c5_poll_once_per_boundary_witness :
    ∃ d' evs, cycle c3Machines busZero dSei = .ok (d', evs) ∧
      pollCount evs = 1 ∧
      d'.pollInterruptsAfterLastInstruction = false :=
  (c5_poll_once_per_boundary c3Machines busZero).1 dSei seiResult rfl
    (by decide) rfl (Or.inl rfl) rfl

/-! ### C8: the last instruction pointer -/

/-- A fetch records the pre-dispatch program counter in
`lastInstructionPointer`. -/
theorem fetchStep_lastIP (m : Machines) (bus : Nat → Nat) (d : Driver) :
    (fetchStep m bus d).1.lastInstructionPointer = d.state.p := by
  simp only [fetchStep]
  repeat' split
  all_goals simp [pollInterruptsStep_p]

/-- Claim C8: `getLastInstructionPointer()` returns the value `p` had at the
start of the most recent fetch cycle: it is `0` after `reset()`, a fetch
cycle stores the pre-increment, pre-dispatch `p`, and every non-fetch cycle
leaves the stored value unchanged. -/
theorem c8_last_instruction_pointer (m : Machines) (bus : Nat → Nat) :
    (∀ rng, (resetDriver m rng).getLastInstructionPointer = 0) ∧
    (∀ d, d.halt = false → d.executionState = Phase.fetch →
      ∃ d' evs, cycle m bus d = .ok (d', evs) ∧
        d'.getLastInstructionPointer = d.state.p) ∧
    (∀ d d' evs, d.executionState ≠ Phase.fetch →
      cycle m bus d = .ok (d', evs) →
      d'.getLastInstructionPointer = d.getLastInstructionPointer) := by
  refine ⟨?_, ?_, ?_⟩
  · intro rng
    simp [resetDriver, Driver.getLastInstructionPointer]
  · intro d hh hp
    have hs := haltSkip_of_not_halt d hh
    exact ⟨(fetchStep m bus d).1, (fetchStep m bus d).2,
      by simp [cycle, hs, hp], fetchStep_lastIP m bus d⟩
  · intro d d' evs hp hc
    by_cases hs : haltSkip d
    · rw [show cycle m bus d = .ok (d, []) from by simp [cycle, hs]] at hc
      rcases hc with ⟨rfl, rfl⟩
      rfl
    · cases hlr : d.lastResult with
      | none =>
          rw [show cycle m bus d = .error "no pending result" from by
            simp [cycle, hs, hp, hlr]] at hc
          cases hc
      | some r =>
          by_cases hty : r.cycleType = CycleType.read
          · obtain ⟨-, -, -, -, -, hlip, -, -, -⟩ :=
              serviceResult_spec d r (bus r.address) (Event.busRead r.address)
            rw [show cycle m bus d =
                .ok (serviceResult d r (bus r.address)
                  (Event.busRead r.address)) from by
              simp [cycle, hs, hp, hlr, hty]] at hc
            rcases hc with ⟨rfl, rfl⟩
            exact hlip
          · by_cases hw : r.cycleType = CycleType.write
            · obtain ⟨-, -, -, -, -, hlip, -, -, -⟩ :=
                serviceResult_spec d r r.value
                  (Event.busWrite r.address r.value)
              rw [show cycle m bus d =
                  .ok (serviceResult d r r.value
                    (Event.busWrite r.address r.value)) from by
                simp [cycle, hs, hp, hlr, hty, hw, CycleType.read,
                  CycleType.write]] at hc
              rcases hc with ⟨rfl, rfl⟩
              exact hlip
            · rw [show cycle m bus d = .error "invalid cycle type" from by
                simp [cycle, hs, hp, hlr, hty, hw]] at hc
              cases hc

/-- Claim C8, witness: applied after reset and at the concrete fetch
driver. -/
theorem c8_last_instruction_pointer_witness :
    (resetDriver trivMachines none).getLastInstructionPointer = 0 ∧
    (∃ d' evs, cycle trivMachines busZero dFetch200 = .ok (d', evs) ∧
      d'.getLastInstructionPointer = dFetch200.state.p) :=
  ⟨(c8_last_instruction_pointer trivMachines busZero).1 none,
   (c8_last_instruction_pointer trivMachines busZero).2.1 dFetch200 rfl rfl⟩
